import Mathlib

/-
Shallow embedding of src/src/platform_se/skyrim_platform/EventsApi.cpp.

Conventions used throughout this file:
* std::string values are modelled as Lean String; where index arithmetic
  matters we work on the underlying character list (String.data).  The
  character * is ASCII, so byte positions and character positions of *
  agree on valid UTF-8 input.
* double (the numeric type of JsValue numbers and of the min/max self id
  bounds) is modelled as Rat; every finite double is an exact rational and
  the code performs no arithmetic on these values, only comparisons.
* DWORD thread ids are modelled as Nat.
* uint32_t selfId is modelled as Nat (no arithmetic is performed on it).
* JsValue script objects reachable from handler callbacks are modelled by
  the Ctx structure: a property map plus the contents of the storage Map
  that PrepareContext attaches under the storage property.  A script
  callback is modelled as a total function Ctx -> Ctx x List Ctx; the
  second component is the list of context snapshots the callback observed
  (instrumentation standing in for arbitrary script side effects).
* the single script-thread executor and the task queue are not run; the
  model records, per native call, how many asynchronous tasks were added
  (asyncTasks), which error-reporting tasks were added (errorTasks, the
  lambdas that rethrow annotated messages on g_taskQueue) and whether the
  call blocked on g_pool.Push(f).wait() (blocked).
-/

/-- PatternType from EventsApi.cpp. -/
inductive PatternType where
  | Exact
  | StartsWith
  | EndsWith
deriving DecidableEq

/-- Pattern from EventsApi.cpp: a parsed wildcard rule. -/
structure Pattern where
  type : PatternType
  str : String
deriving DecidableEq

/-- Error message thrown by Pattern::Parse when more than one star occurs. -/
def patternErrCount : String :=
  "Patterns can contain only one \x27*\x27 at the beginning/end of string"

/-- Error message thrown by Pattern::Parse when the single star is not at the first or last position. -/
def patternErrPos : String :=
  "In patterns \x27*\x27 must be at the beginning/end of string"

/-- Pattern.Parse. C++ computes count = std::count(str, char star), then
pos = str.find(star); pos equal to 0 and pos equal to size-1 are the two
accepted placements. Thrown std::runtime_error is modelled as Except.error. -/
def Pattern.Parse (s : String) : Except String Pattern :=
  let count := s.data.count '*'
  if count = 0 then
    .ok ⟨.Exact, s⟩
  else if 1 < count then
    .error patternErrCount
  else
    let pos := s.data.findIdx (fun c => c == '*')
    if pos = 0 then
      .ok ⟨.EndsWith, String.mk (s.data.drop 1)⟩
    else if pos = s.data.length - 1 then
      .ok ⟨.StartsWith, String.mk (s.data.dropLast)⟩
    else
      .error patternErrPos

/-- Pattern evaluation: the switch inside Handler::Matches. Exact is
byte equality; StartsWith and EndsWith are the length-gated memcmp
comparisons of the prefix or suffix of the candidate. -/
def Pattern.matchesName (p : Pattern) (eventName : String) : Bool :=
  match p.type with
  | .Exact => eventName == p.str
  | .StartsWith =>
      decide (p.str.data.length ≤ eventName.data.length) &&
        eventName.data.take p.str.data.length == p.str.data
  | .EndsWith =>
      decide (p.str.data.length ≤ eventName.data.length) &&
        eventName.data.drop (eventName.data.length - p.str.data.length) == p.str.data

/-- JsValue payloads that the claims exercise. -/
inductive JsVal where
  | num (q : Rat)
  | str (s : String)
  | bool (b : Bool)
deriving DecidableEq

/-- Cast of a context property to std::string as done after the enter
callback returns (static_cast to std::string of GetProperty). The non
string cases follow the JavaScript ToString coercion performed by the
script engine, which lives outside this translation unit. -/
def valToString : Option JsVal → String
  | some (.str s) => s
  | some (.num q) => toString q
  | some (.bool b) => toString b
  | none => "undefined"

/-- Observable part of the per-thread context object handed to a script
callback: its named properties and the contents of the storage Map. -/
structure Ctx where
  props : String → Option JsVal
  storage : List JsVal

/-- Ctx.SetProperty. -/
def Ctx.setProp (c : Ctx) (k : String) (v : JsVal) : Ctx :=
  { c with props := fun k' => if k' = k then some v else c.props k' }

/-- Context object with no properties, as produced by JsValue::Object(). -/
def emptyCtx : Ctx := ⟨fun _ => none, []⟩

/-- Handler::PerThread: context object, storage Map and the recorded match
flag. contextCreated and storageCreated model whether the corresponding
JsValue already holds an object (GetType is Object) rather than the
default undefined value. -/
structure PerThread where
  context : Ctx
  contextCreated : Bool
  storageCreated : Bool
  matchesCondition : Bool

/-- Default-constructed PerThread, as produced by operator[] on the
perThread unordered_map for an absent key. -/
def PerThread.init : PerThread := ⟨emptyCtx, false, false, false⟩

/-- Lookup in the perThread unordered_map, modelled as an association list. -/
def ptLookup : List (Nat × PerThread) → Nat → Option PerThread
  | [], _ => none
  | (k, v) :: r, tid => if k = tid then some v else ptLookup r tid

/-- Store into the perThread unordered_map (operator[] plus assignment). -/
def ptSet (m : List (Nat × PerThread)) (tid : Nat) (v : PerThread) : List (Nat × PerThread) :=
  (tid, v) :: m.filter (fun p => p.1 != tid)

/-- Erase from the perThread unordered_map. -/
def ptRemove (m : List (Nat × PerThread)) (tid : Nat) : List (Nat × PerThread) :=
  m.filter (fun p => p.1 != tid)

/-- Handler from EventsApi.cpp. enter and leave are the script callables
taken from the handler object; a callback returns the updated context and
the list of context snapshots it observed. -/
structure Handler where
  perThread : List (Nat × PerThread)
  enter : Ctx → Ctx × List Ctx
  leave : Ctx → Ctx × List Ctx
  pattern : Option Pattern
  minSelfId : Option Rat
  maxSelfId : Option Rat

/-- Handler::Matches: min bound, then max bound, then pattern, with
short-circuit early false returns; unconditional match when nothing is
configured. -/
def Handler.Matches (h : Handler) (selfId : Nat) (eventName : String) : Bool :=
  if h.minSelfId.any (fun m => decide ((selfId : Rat) < m)) then false
  else if h.maxSelfId.any (fun m => decide (m < (selfId : Rat))) then false
  else
    match h.pattern with
    | some p => p.matchesName eventName
    | none => true

/-- PrepareContext from Hook: create the context object if it is not yet
an object, and create plus attach the storage Map if it is not yet an
object. Creating a fresh context resets the property map only; the
storage Map is a separate JsValue handle, modelled by the storage field. -/
def PrepareContext (pt : PerThread) : PerThread :=
  let pt1 :=
    if pt.contextCreated then pt
    else { pt with context := { props := fun _ => none, storage := pt.context.storage },
                   contextCreated := true }
  if pt1.storageCreated then pt1
  else { pt1 with context := { pt1.context with storage := [] }, storageCreated := true }

/-- ClearContextStorage from Hook: Map.prototype.clear on the storage Map. -/
def ClearContextStorage (pt : PerThread) : PerThread :=
  { pt with context := { pt.context with storage := [] } }

/-- Body of the per-handler loop of Hook::HandleEnter: record the match
flag in the per-thread entry (created by operator[] whether or not the
handler matches), and when it matches prepare the context, clear storage,
set selfId and the event-name property, run the enter callback and read
the possibly rewritten event name back. Returns the updated handler, the
event name to feed to the next handler, and the callback log. -/
def HandleEnterStep (vn : String) (tid selfId : Nat) (ev : String) (h : Handler) :
    Handler × String × List Ctx :=
  let pt0 := (ptLookup h.perThread tid).getD PerThread.init
  let matched := h.Matches selfId ev
  let pt1 := { pt0 with matchesCondition := matched }
  if matched then
    let pt2 := ClearContextStorage (PrepareContext pt1)
    let pt3 := { pt2 with context :=
      (pt2.context.setProp "selfId" (.num selfId)).setProp vn (.str ev) }
    let res := h.enter pt3.context
    let pt4 := { pt3 with context := res.1 }
    ({ h with perThread := ptSet h.perThread tid pt4 },
      valToString (res.1.props vn), res.2)
  else
    ({ h with perThread := ptSet h.perThread tid pt1 }, ev, [])

/-- Hook::HandleEnter: run the per-handler enter step over the handler
list in registration order, threading the (possibly rewritten) event name
from each handler to the next. -/
def HandleEnter (vn : String) (tid selfId : Nat) (ev : String) :
    List Handler → List Handler × String × List Ctx
  | [] => ([], ev, [])
  | h :: hs =>
    let s := HandleEnterStep vn tid selfId ev h
    let r := HandleEnter vn tid selfId s.2.1 hs
    (s.1 :: r.1, r.2.1, s.2.2 ++ r.2.2)

/-- Hook::HandleLeave: for each handler, fetch the per-thread entry with
map::at (an absent entry throws, carried in the Option String component),
skip handlers whose recorded match flag is false, otherwise prepare the
context (without clearing storage), optionally set the success flag
property, run the leave callback and erase the per-thread entry. -/
def HandleLeave (sv : Option String) (tid : Nat) (succeeded : Bool) :
    List Handler → List Handler × List Ctx × Option String
  | [] => ([], [], none)
  | h :: hs =>
    match ptLookup h.perThread tid with
    | none => (h :: hs, [], some "map::at")
    | some pt =>
      if pt.matchesCondition then
        let pt1 := PrepareContext pt
        let pt2 :=
          match sv with
          | some nm => { pt1 with context := pt1.context.setProp nm (.bool succeeded) }
          | none => pt1
        let log1 := (h.leave pt2.context).2
        let h' := { h with perThread := ptRemove h.perThread tid }
        let r := HandleLeave sv tid succeeded hs
        (h' :: r.1, log1 ++ r.2.1, r.2.2)
      else
        let r := HandleLeave sv tid succeeded hs
        (h :: r.1, r.2.1, r.2.2)

/-- Hook from EventsApi.cpp: identity, the set of in-progress thread ids
and the ordered handler list. -/
structure Hook where
  hookName : String
  eventNameVariableName : String
  succeededVariableName : Option String
  inProgressThreads : List Nat
  handlers : List Handler

/-- std::set insert on the in-progress thread set. -/
def insertThread (tid : Nat) (l : List Nat) : List Nat :=
  if tid ∈ l then l else tid :: l

/-- std::set erase on the in-progress thread set. -/
def eraseThread (tid : Nat) (l : List Nat) : List Nat :=
  l.filter (fun x => x != tid)

/-- Observable outcome of one native Hook::Enter call: the hook state at
return, the final value of the by-reference event name argument, the
error-reporting tasks added to g_taskQueue, the number of asynchronous
dispatch tasks added to g_taskQueue, whether the native thread blocked on
g_pool.Push(f).wait(), and the concatenated callback logs. -/
structure EnterResult where
  hook : Hook
  eventName : String
  errorTasks : List String
  asyncTasks : Nat
  blocked : Bool
  log : List Ctx

/-- Observable outcome of one native Hook::Leave call. -/
structure LeaveResult where
  hook : Hook
  errorTasks : List String
  blocked : Bool
  log : List Ctx

/-- Hook::Enter. The sendPapyrusEvent hook is the fire-and-forget mode:
an unsynchronized pre-check over the handler filters decides whether one
asynchronous task is enqueued; the caller never blocks and the event name
is copied, never written back. Every other hook blocks on the script
thread executor: a thread already in the in-progress set makes the body
throw, and the catch turns the annotated message into an error task on
g_taskQueue instead of rethrowing to the native caller; otherwise the
thread is inserted and HandleEnter runs, its final event name being
written through the by-reference argument. -/
def Hook.Enter (hk : Hook) (tid selfId : Nat) (ev : String) : EnterResult :=
  if hk.hookName = "sendPapyrusEvent" then
    if hk.handlers.any (fun h => h.Matches selfId ev) then
      { hook := hk, eventName := ev, errorTasks := [], asyncTasks := 1,
        blocked := false, log := [] }
    else
      { hook := hk, eventName := ev, errorTasks := [], asyncTasks := 0,
        blocked := false, log := [] }
  else if tid ∈ hk.inProgressThreads then
    { hook := hk, eventName := ev,
      errorTasks := ["\x27" ++ hk.hookName ++ "\x27 is already processing (while performing enter on \x27" ++ hk.hookName ++ "\x27)"],
      asyncTasks := 0, blocked := true, log := [] }
  else
    let r := HandleEnter hk.eventNameVariableName tid selfId ev hk.handlers
    { hook := { hk with inProgressThreads := insertThread tid hk.inProgressThreads,
                        handlers := r.1 },
      eventName := r.2.1, errorTasks := [], asyncTasks := 0, blocked := true,
      log := r.2.2 }

/-- Hook::Leave. sendPapyrusEvent returns immediately. Otherwise a thread
not in the in-progress set makes the body throw, and the catch appends
the in SendAnimationEventLeave annotation and posts the message as an
error task; a tracked thread is erased from the set before HandleLeave
runs, and an exception escaping HandleLeave is annotated the same way. -/
def Hook.Leave (hk : Hook) (tid : Nat) (succeeded : Bool) : LeaveResult :=
  if hk.hookName = "sendPapyrusEvent" then
    { hook := hk, errorTasks := [], blocked := false, log := [] }
  else if tid ∈ hk.inProgressThreads then
    let r := HandleLeave hk.succeededVariableName tid succeeded hk.handlers
    { hook := { hk with inProgressThreads := eraseThread tid hk.inProgressThreads,
                        handlers := r.1 },
      errorTasks :=
        match r.2.2 with
        | some e => [e ++ " (in SendAnimationEventLeave)"]
        | none => [],
      blocked := true, log := r.2.1 }
  else
    { hook := hk,
      errorTasks := ["\x27" ++ hk.hookName ++ "\x27 is not processing (in SendAnimationEventLeave)"],
      blocked := true, log := [] }

/-- CreateHookApi add: optionally parse the pattern string (a parse error
propagates synchronously to the registering caller), construct a Handler
from the handler object callables and push it onto the hook. -/
def hookAdd (hk : Hook) (enterF leaveF : Ctx → Ctx × List Ctx)
    (minSelfId maxSelfId : Option Rat) (patternStr : Option String) :
    Except String Hook :=
  match patternStr with
  | some ps =>
    match Pattern.Parse ps with
    | .error e => .error e
    | .ok p =>
      .ok { hk with handlers := hk.handlers ++ [⟨[], enterF, leaveF, some p, minSelfId, maxSelfId⟩] }
  | none =>
    .ok { hk with handlers := hk.handlers ++ [⟨[], enterF, leaveF, none, minSelfId, maxSelfId⟩] }

/-- Script callbacks registered through On and Once. A callback is opaque
script code; the model gives each an identifying number and lets it either
do nothing or re-register a one-shot callback (the behaviour the spec and
the claims exercise during dispatch). -/
inductive CB where
  | basic (id : Nat)
  | onceRegisterer (id : Nat) (ev : String) (inner : CB)

/-- Identifying number of a callback, used in invocation traces. -/
def CB.cbId : CB → Nat
  | .basic i => i
  | .onceRegisterer i _ _ => i

/-- EventsGlobalState callback maps: name-keyed persistent and one-shot
callback lists. std::map with operator[] default construction is modelled
as a total function with default empty list. -/
structure CbState where
  callbacks : String → List CB
  callbacksOnce : String → List CB

/-- Update of a name-keyed callback map. -/
def mapUpd (m : String → List CB) (k : String) (v : List CB) : String → List CB :=
  fun k' => if k' = k then v else m k'

/-- push_back on one entry of a name-keyed callback map. -/
def mapAppend (m : String → List CB) (k : String) (c : CB) : String → List CB :=
  mapUpd m k (m k ++ [c])

/-- Fixed recognized event categories from AddCallback. -/
def events : List String :=
  ["tick", "update", "effectStart", "effectFinish", "magicEffectApply",
   "equip", "unequip", "hit", "containerChanged", "deathStart", "deathEnd",
   "loadGame", "combatState", "reset", "scriptInit", "trackedStats",
   "uniqueIdChange", "switchRaceComplete", "cellFullyLoaded", "grabRelease",
   "lockChanged", "moveAttachDetach", "objectLoaded", "waitStop", "activate"]

/-- AddCallback from EventsApi.cpp: an event name outside the recognized
set throws InvalidArgumentException (that class lives outside this
translation unit; its message is modelled from the spec as a synchronous
UnknownEventCategory style error); otherwise the callback is appended to
the persistent or one-shot list for the name. -/
def AddCallback (eventName : String) (callback : CB) (isOnce : Bool) (st : CbState) :
    Except String CbState :=
  if eventName ∈ events then
    .ok (if isOnce then { st with callbacksOnce := mapAppend st.callbacksOnce eventName callback }
         else { st with callbacks := mapAppend st.callbacks eventName callback })
  else
    .error ("InvalidArgumentException: eventName " ++ eventName)

/-- Effect of invoking one script callback on the registry state. A
failing registration inside the callback propagates as a script exception
through f.Call. -/
def runCB : CB → CbState → Except String CbState
  | .basic _, st => .ok st
  | .onceRegisterer _ ev inner, st => AddCallback ev inner true st

/-- Invocation loop of CallCalbacks over one snapshot list: runs each
callback in order, returning the final state and the trace of invoked
callback ids; an exception stops the loop and propagates. -/
def runCallbackList : List CB → CbState → Except String (CbState × List Nat)
  | [], st => .ok (st, [])
  | c :: cs, st =>
    match runCB c st with
    | .error e => .error e
    | .ok st' =>
      match runCallbackList cs st' with
      | .error e => .error e
      | .ok (st'', ids) => .ok (st'', c.cbId :: ids)

/-- CallCalbacks from EventsApi.cpp (source spelling kept): copy the
whole requested map as a snapshot, clear the live one-shot list for the
name when isOnce, then invoke the snapshot list for the name in order. -/
def CallCalbacks (eventName : String) (isOnce : Bool) (st : CbState) :
    Except String (CbState × List Nat) :=
  let snapshot := if isOnce then st.callbacksOnce else st.callbacks
  let st1 :=
    if isOnce then { st with callbacksOnce := mapUpd st.callbacksOnce eventName [] }
    else st
  runCallbackList (snapshot eventName) st1

/-- EventsApi::SendEvent: the persistent pass followed by the one-shot pass. -/
def SendEvent (eventName : String) (st : CbState) : Except String (CbState × List Nat) :=
  match CallCalbacks eventName false st with
  | .error e => .error e
  | .ok (st1, t1) =>
    match CallCalbacks eventName true st1 with
    | .error e => .error e
    | .ok (st2, t2) => .ok (st2, t1 ++ t2)

/-- Modelled from the spec (claim C3 wording), for refinement comparison
only: SendEvent is claimed to first take immutable snapshots of both the
persistent and one-shot lists for the name, clear the live one-shot list
before invoking any callback of either kind, then invoke the persistent
snapshot followed by the one-shot snapshot. -/
def SendEventClaimC3 (eventName : String) (st : CbState) : Except String (CbState × List Nat) :=
  let persistentSnap := st.callbacks eventName
  let onceSnap := st.callbacksOnce eventName
  let st1 := { st with callbacksOnce := mapUpd st.callbacksOnce eventName [] }
  match runCallbackList persistentSnap st1 with
  | .error e => .error e
  | .ok (st2, t1) =>
    match runCallbackList onceSnap st2 with
    | .error e => .error e
    | .ok (st3, t2) => .ok (st3, t1 ++ t2)

/-- Enter callback used as instrumentation for claim C9: appends one
value to the storage Map and logs the context it was given. -/
def stashEnter (v : JsVal) : Ctx → Ctx × List Ctx :=
  fun c => ({ c with storage := c.storage ++ [v] }, [c])

/-- Leave callback used as instrumentation for claim C9: logs the context
it was given and changes nothing. -/
def probeLeave : Ctx → Ctx × List Ctx :=
  fun c => (c, [c])

/-- Script callback that does nothing, for fixtures. -/
def idCb : Ctx → Ctx × List Ctx := fun c => (c, [])

/-- Enter callback that rewrites a given context property to a given
string, for the claim C1 fixtures. -/
def rewriteEnter (k s : String) : Ctx → Ctx × List Ctx :=
  fun c => (c.setProp k (.str s), [])

/-- Filters on handlers: the immutable filter fields coincide. -/
def sameFilter (a b : Handler) : Prop :=
  a.minSelfId = b.minSelfId ∧ a.maxSelfId = b.maxSelfId ∧ a.pattern = b.pattern

/-- Pointwise filter equality of two handler lists. -/
def sameFiltersList : List Handler → List Handler → Prop :=
  List.Forall₂ sameFilter

/-- Registry state with no registered callbacks at all. -/
def emptyCbState : CbState := ⟨fun _ => [], fun _ => []⟩

/-- Concrete registry state for the claim C3 counterexample: one
persistent tick callback (id 1) that re-registers a one-shot callback
(id 2) for tick during its own invocation; no one-shot callbacks yet. -/
def exSt3 : CbState :=
  { callbacks := mapUpd (fun _ => []) "tick" [CB.onceRegisterer 1 "tick" (CB.basic 2)],
    callbacksOnce := fun _ => [] }

/-- Handler for the claim C4 counterexample: its pattern never matches
the event name used there, so its per-thread entry is created at Enter
with a false match flag and is never erased at Leave. -/
def exH4 : Handler :=
  ⟨[], idCb, idCb, some ⟨.Exact, "x"⟩, none, none⟩

/-- Blocking-mode hook for the claim C4 counterexample. -/
def exHook4 : Hook :=
  ⟨"sendAnimationEvent", "animEventName", some "animationSucceeded", [], [exH4]⟩

/-- First handler for the claim C1 witness: matches everything and
rewrites the event-name property to jump. -/
def exH1 : Handler :=
  ⟨[], rewriteEnter "animEventName" "jump", idCb, none, none, none⟩

/-- Second handler for the claim C1 witness: filters on a pattern that
matches the rewritten name only. -/
def exH2 : Handler :=
  ⟨[], idCb, idCb, some ⟨.StartsWith, "ju"⟩, none, none⟩

/-- Hook for the claim C1 witness. -/
def exHook1 : Hook :=
  ⟨"sendAnimationEvent", "animEventName", some "animationSucceeded", [], [exH1, exH2]⟩

/-- Hook for the claim C2 witness. -/
def exHook2 : Hook :=
  ⟨"sendAnimationEvent", "animEventName", some "animationSucceeded", [], [exH1]⟩

/-- Papyrus-mode handler with a min bound, for the claim C8 witness. -/
def exH8 : Handler :=
  ⟨[], idCb, idCb, none, some 5, none⟩

/-- Same filter as exH8 but different callbacks and per-thread state,
for the filter-only invariance half of the claim C8 witness. -/
def exH8b : Handler :=
  ⟨[(3, PerThread.init)], probeLeave, probeLeave, none, some 5, none⟩

/-- Fire-and-forget hook for the claim C8 witness. -/
def exHook8 : Hook :=
  ⟨"sendPapyrusEvent", "papyrusEventName", none, [], [exH8]⟩

/-- Variant of exHook8 with the same handler filters but different
mutable state, for the claim C8 witness. -/
def exHook8b : Hook :=
  ⟨"sendPapyrusEvent", "papyrusEventName", none, [9], [exH8b]⟩

/-- Hook for the claim C9 witness. -/
def exHook9 : Hook :=
  ⟨"sendAnimationEvent", "animEventName", some "animationSucceeded", [],
   [⟨[], stashEnter (.num 1), probeLeave, some ⟨.StartsWith, "ju"⟩, some 2, some 5⟩]⟩

/-- Handler with both bounds and a pattern, for the claim C7 witness. -/
def exH7 : Handler :=
  ⟨[], idCb, idCb, some ⟨.Exact, "hit"⟩, some 5, some 10⟩

/-- Registry state with one one-shot tick callback (id 1) that
re-registers a one-shot callback (id 2) for tick, for the claim C3
amended-theorem witness. -/
def exSt3b : CbState :=
  ⟨fun _ => [], mapUpd (fun _ => []) "tick" [CB.onceRegisterer 1 "tick" (CB.basic 2)]⟩

/-- Looking up the key just stored yields the stored entry. -/
theorem ptLookup_ptSet (m : List (Nat × PerThread)) (tid : Nat) (v : PerThread) :
    ptLookup (ptSet m tid v) tid = some v := by
  simp [ptSet, ptLookup]

/-- Looking up an erased key yields none. -/
theorem ptLookup_ptRemove (m : List (Nat × PerThread)) (tid : Nat) :
    ptLookup (ptRemove m tid) tid = none := by
  induction m with
  | nil => rfl
  | cons p r ih =>
    obtain ⟨k, v⟩ := p
    by_cases h : k = tid
    · simp only [ptRemove, List.filter_cons] at *
      simp [h, ih]
    · simp only [ptRemove, List.filter_cons] at *
      simp [h, ptLookup, ih]

/-- PrepareContext does not touch the recorded match flag. -/
theorem PrepareContext_flag (pt : PerThread) :
    (PrepareContext pt).matchesCondition = pt.matchesCondition := by
  simp only [PrepareContext]
  split <;> split <;> rfl

/-- PrepareContext leaves both objects created. -/
theorem PrepareContext_created (pt : PerThread) :
    (PrepareContext pt).contextCreated = true ∧ (PrepareContext pt).storageCreated = true := by
  simp only [PrepareContext]
  constructor
  · split
    · split
      · assumption
      · assumption
    · split <;> rfl
  · split
    · split
      · assumption
      · rfl
    · split
      · assumption
      · rfl

/-- PrepareContext is the identity once both objects exist. -/
theorem PrepareContext_of_created (pt : PerThread)
    (h1 : pt.contextCreated = true) (h2 : pt.storageCreated = true) :
    PrepareContext pt = pt := by
  simp [PrepareContext, h1, h2]

/-- ClearContextStorage does not touch the recorded match flag. -/
theorem ClearContextStorage_flag (pt : PerThread) :
    (ClearContextStorage pt).matchesCondition = pt.matchesCondition := rfl

/-- ClearContextStorage empties the storage Map. -/
theorem ClearContextStorage_storage (pt : PerThread) :
    (ClearContextStorage pt).context.storage = [] := rfl

/-- A thread is in the set after std::set insert. -/
theorem mem_insertThread (tid : Nat) (l : List Nat) : tid ∈ insertThread tid l := by
  by_cases h : tid ∈ l <;> simp [insertThread, h]

/-- The per-handler enter step always records the match outcome in the
per-thread entry for the calling thread, whether or not it matched. -/
theorem HandleEnterStep_flag (vn : String) (tid selfId : Nat) (ev : String) (h : Handler) :
    (ptLookup (HandleEnterStep vn tid selfId ev h).1.perThread tid).map
      (fun pt => pt.matchesCondition) = some (h.Matches selfId ev) := by
  cases hM : h.Matches selfId ev <;>
    simp [HandleEnterStep, hM, ptLookup_ptSet, ClearContextStorage_flag, PrepareContext_flag]

/-- The per-handler enter step always leaves an entry for the calling
thread in the per-thread map. -/
theorem HandleEnterStep_entry (vn : String) (tid selfId : Nat) (ev : String) (h : Handler) :
    (ptLookup (HandleEnterStep vn tid selfId ev h).1.perThread tid).isSome = true := by
  cases hM : h.Matches selfId ev <;>
    simp [HandleEnterStep, hM, ptLookup_ptSet]

/-- After HandleEnter, every handler has a per-thread entry for the
calling thread. -/
theorem HandleEnter_entries (vn : String) (tid selfId : Nat) :
    ∀ (ev : String) (hs : List Handler),
      (HandleEnter vn tid selfId ev hs).1.map
          (fun h => (ptLookup h.perThread tid).isSome)
        = hs.map (fun _ => true) := by
  intro ev hs
  induction hs generalizing ev with
  | nil => rfl
  | cons h hs ih =>
    simp only [HandleEnter, List.map, List.cons.injEq]
    exact ⟨HandleEnterStep_entry vn tid selfId ev h, by simpa using ih _⟩

/-- Membership form of HandleEnter_entries. -/
theorem HandleEnter_entries_mem (vn : String) (tid selfId : Nat) :
    ∀ (ev : String) (hs : List Handler),
      ∀ h' ∈ (HandleEnter vn tid selfId ev hs).1,
        (ptLookup h'.perThread tid).isSome = true := by
  intro ev hs
  induction hs generalizing ev with
  | nil => intro h' hmem; cases hmem
  | cons h hs ih =>
    intro h' hmem
    simp only [HandleEnter] at hmem
    rcases List.mem_cons.mp hmem with rfl | hmem
    · exact HandleEnterStep_entry vn tid selfId ev h
    · exact ih _ h' hmem

/-- HandleLeave, when every handler has a per-thread entry for the
thread, throws nothing and keeps an entry exactly for the handlers whose
recorded match flag was false. -/
theorem HandleLeave_entries (sv : Option String) (tid : Nat) (b : Bool) :
    ∀ (hs : List Handler),
      (∀ h ∈ hs, (ptLookup h.perThread tid).isSome = true) →
      (HandleLeave sv tid b hs).2.2 = none ∧
      (HandleLeave sv tid b hs).1.map (fun h => (ptLookup h.perThread tid).isSome)
        = hs.map (fun h =>
            match ptLookup h.perThread tid with
            | some pt => !pt.matchesCondition
            | none => true) := by
  intro hs
  induction hs with
  | nil => intro _; exact ⟨rfl, rfl⟩
  | cons h hs ih =>
    intro hall
    have hhead := hall h (List.mem_cons_self h hs)
    have htail := fun h' hm => hall h' (List.mem_cons_of_mem h hm)
    obtain ⟨pt, hpt⟩ := Option.isSome_iff_exists.mp hhead
    obtain ⟨ihnone, ihmap⟩ := ih htail
    cases hflag : pt.matchesCondition with
    | false =>
      constructor
      · simpa [HandleLeave, hpt, hflag] using ihnone
      · simp [HandleLeave, hpt, hflag, hhead, ihmap]
    | true =>
      constructor
      · simpa [HandleLeave, hpt, hflag] using ihnone
      · simp [HandleLeave, hpt, hflag, ptLookup_ptRemove, ihmap]

/-- Matching depends only on the immutable filter fields. -/
theorem Matches_of_sameFilter (a b : Handler) (hf : sameFilter a b)
    (selfId : Nat) (ev : String) :
    a.Matches selfId ev = b.Matches selfId ev := by
  obtain ⟨h1, h2, h3⟩ := hf
  simp [Handler.Matches, h1, h2, h3]

/-- The could-any-handler-match pre-check depends only on the immutable
filter fields of the registered handlers. -/
theorem any_Matches_of_sameFiltersList :
    ∀ (l1 l2 : List Handler), sameFiltersList l1 l2 →
      ∀ (selfId : Nat) (ev : String),
        l1.any (fun h => h.Matches selfId ev) = l2.any (fun h => h.Matches selfId ev) := by
  intro l1 l2 hf
  induction hf with
  | nil => intro _ _; rfl
  | cons hab _ ih =>
    intro selfId ev
    simp [List.any, Matches_of_sameFilter _ _ hab selfId ev, ih selfId ev]

/-- Position of the star in a star-terminated string whose stem is
star-free: std::string find returns the index of the final character. -/
theorem findIdx_star_concat (x : List Char) (hx : x.count '*' = 0) :
    List.findIdx (fun c => c == '*') (x ++ ['*']) = x.length := by
  induction x with
  | nil => simp [List.findIdx_cons]
  | cons c r ih =>
    have hmem : '*' ∉ c :: r := List.count_eq_zero.mp hx
    have hc : (c == '*') = false := by
      simp only [beq_eq_false_iff_ne, ne_eq]
      intro hcc
      exact hmem (hcc ▸ List.mem_cons_self c r)
    have hr : r.count '*' = 0 :=
      List.count_eq_zero.mpr (fun hm => hmem (List.mem_cons_of_mem c hm))
    simp [List.findIdx_cons, hc, ih hr]

/-- Claim C6: Pattern.Parse maps a star-free string to Exact, a leading
star to EndsWith of the remainder, a trailing star to StartsWith of the
stem, and fails with the pattern-syntax errors for more than one star or
for a single star away from the first and last position; a parse failure
propagates synchronously out of the hook add registration call, so the
error is raised at registration time (dispatch-time matching is the total
Boolean function Handler.Matches and raises nothing). -/
theorem c6_parse_classification :
    (∀ s : String, s.data.count '*' = 0 → Pattern.Parse s = .ok ⟨.Exact, s⟩)
  ∧ (∀ x : List Char, x.count '*' = 0 →
       Pattern.Parse (String.mk ('*' :: x)) = .ok ⟨.EndsWith, String.mk x⟩)
  ∧ (∀ x : List Char, x.count '*' = 0 → x ≠ [] →
       Pattern.Parse (String.mk (x ++ ['*'])) = .ok ⟨.StartsWith, String.mk x⟩)
  ∧ (∀ s : String, 1 < s.data.count '*' → Pattern.Parse s = .error patternErrCount)
  ∧ (∀ s : String, s.data.count '*' = 1 → s.data.head? ≠ some '*' →
       s.data.getLast? ≠ some '*' → Pattern.Parse s = .error patternErrPos)
  ∧ (∀ (hk : Hook) (eF lF : Ctx → Ctx × List Ctx) (mn mx : Option Rat) (ps e : String),
       Pattern.Parse ps = .error e → hookAdd hk eF lF mn mx (some ps) = .error e) := by
  refine ⟨?_, ?_, ?_, ?_, ?_, ?_⟩
  · intro s h
    simp [Pattern.Parse, h]
  · intro x h
    have hcount : ('*' :: x).count '*' = 1 := by simp [List.count_cons, h]
    simp [Pattern.Parse, hcount, List.findIdx_cons]
  · intro x h hne
    have hcount : (x ++ ['*']).count '*' = 1 := by simp [List.count_append, h]
    have hpos := findIdx_star_concat x h
    have hlen0 : x.length ≠ 0 := by simpa using hne
    simp [Pattern.Parse, hcount, hpos, hlen0, List.dropLast_concat]
  · intro s h
    have h0 : ¬ s.data.count '*' = 0 := by omega
    simp [Pattern.Parse, h0, h]
  · intro s h1 hh hl
    have hmem : '*' ∈ s.data := by
      by_contra hnm
      rw [List.count_eq_zero.mpr hnm] at h1
      omega
    have hlt : List.findIdx (fun c => c == '*') s.data < s.data.length :=
      List.findIdx_lt_length_of_exists ⟨'*', hmem, by simp⟩
    have hstar : s.data[List.findIdx (fun c => c == '*') s.data] = '*' := by
      simpa using List.findIdx_getElem (w := hlt)
    have hpos0 : List.findIdx (fun c => c == '*') s.data ≠ 0 := by
      intro h0
      apply hh
      rw [List.head?_eq_getElem?, ← h0, List.getElem?_eq_getElem hlt, hstar]
    have hposl : List.findIdx (fun c => c == '*') s.data ≠ s.data.length - 1 := by
      intro he
      apply hl
      rw [List.getLast?_eq_getElem?, ← he, List.getElem?_eq_getElem hlt, hstar]
    have h0 : ¬ s.data.count '*' = 0 := by omega
    have h2 : ¬ 1 < s.data.count '*' := by omega
    have hposl2 : List.findIdx (fun c => c == '*') s.data ≠ s.length - 1 := by
      simpa using hposl
    simp [Pattern.Parse, h0, h2, hpos0, hposl2]
  · intro hk eF lF mn mx ps e hparse
    simp [hookAdd, hparse]

/-- Witness for claim C6 at the concrete spec examples. -/
theorem c6_parse_classification_witness :
    Pattern.Parse "foo" = .ok ⟨.Exact, "foo"⟩
  ∧ Pattern.Parse "*foo" = .ok ⟨.EndsWith, "foo"⟩
  ∧ Pattern.Parse "foo*" = .ok ⟨.StartsWith, "foo"⟩
  ∧ Pattern.Parse "f*o*o" = .error patternErrCount
  ∧ Pattern.Parse "f*o" = .error patternErrPos := by
  refine ⟨?_, ?_, ?_, ?_, ?_⟩
  · exact c6_parse_classification.1 "foo" (by decide)
  · exact c6_parse_classification.2.1 "foo".data (by decide)
  · exact c6_parse_classification.2.2.1 "foo".data (by decide) (by decide)
  · exact c6_parse_classification.2.2.2.1 "f*o*o" (by decide)
  · exact c6_parse_classification.2.2.2.2.1 "f*o" (by decide) (by decide) (by decide)

/-- Claim C7: Handler matching checks the optional inclusive minimum
bound, then the optional inclusive maximum bound, then the optional
pattern, short-circuiting to false on the first failing bound; it matches
unconditionally when all three are absent; with min 5 and max 10 the ids
4 and 11 never match while 5 and 10 depend only on the pattern; and a
StartsWith or EndsWith pattern never matches a candidate shorter than the
pattern fragment. -/
theorem c7_matches_order :
    (∀ (h : Handler) (selfId : Nat) (ev : String) (m : Rat),
       h.minSelfId = some m → (selfId : Rat) < m → h.Matches selfId ev = false)
  ∧ (∀ (h : Handler) (selfId : Nat) (ev : String) (m : Rat),
       (∀ q, h.minSelfId = some q → ¬ (selfId : Rat) < q) →
       h.maxSelfId = some m → m < (selfId : Rat) → h.Matches selfId ev = false)
  ∧ (∀ (h : Handler) (selfId : Nat) (ev : String),
       h.minSelfId = none → h.maxSelfId = none → h.pattern = none →
       h.Matches selfId ev = true)
  ∧ (∀ (h : Handler) (selfId : Nat) (ev : String) (p : Pattern),
       (∀ q, h.minSelfId = some q → ¬ (selfId : Rat) < q) →
       (∀ q, h.maxSelfId = some q → ¬ q < (selfId : Rat)) →
       h.pattern = some p → h.Matches selfId ev = p.matchesName ev)
  ∧ (∀ (h : Handler) (ev : String),
       h.minSelfId = some 5 → h.maxSelfId = some 10 →
       h.Matches 4 ev = false ∧ h.Matches 11 ev = false
       ∧ (∀ p, h.pattern = some p →
            h.Matches 5 ev = p.matchesName ev ∧ h.Matches 10 ev = p.matchesName ev))
  ∧ (∀ (frag ev : String), ev.data.length < frag.data.length →
       Pattern.matchesName ⟨.StartsWith, frag⟩ ev = false
       ∧ Pattern.matchesName ⟨.EndsWith, frag⟩ ev = false) := by
  refine ⟨?_, ?_, ?_, ?_, ?_, ?_⟩
  · intro h selfId ev m hmin hlt
    simp [Handler.Matches, hmin, hlt]
  · intro h selfId ev m hminok hmax hlt
    have hminfalse : h.minSelfId.any (fun q => decide ((selfId : Rat) < q)) = false := by
      cases hq : h.minSelfId with
      | none => rfl
      | some q => simpa using hminok q hq
    simp [Handler.Matches, hminfalse, hmax, hlt]
  · intro h selfId ev hmin hmax hpat
    simp [Handler.Matches, hmin, hmax, hpat]
  · intro h selfId ev p hminok hmaxok hpat
    have hminfalse : h.minSelfId.any (fun q => decide ((selfId : Rat) < q)) = false := by
      cases hq : h.minSelfId with
      | none => rfl
      | some q => simpa using hminok q hq
    have hmaxfalse : h.maxSelfId.any (fun q => decide (q < (selfId : Rat))) = false := by
      cases hq : h.maxSelfId with
      | none => rfl
      | some q => simpa using hmaxok q hq
    simp [Handler.Matches, hminfalse, hmaxfalse, hpat]
  · intro h ev hmin hmax
    refine ⟨?_, ?_, ?_⟩
    · simp [Handler.Matches, hmin]
      norm_num
    · simp [Handler.Matches, hmin, hmax]
      norm_num
    · intro p hpat
      constructor
      · simp [Handler.Matches, hmin, hmax, hpat]
        norm_num
      · simp [Handler.Matches, hmin, hmax, hpat]
        norm_num
  · intro frag ev hlen
    have hlen2 : ev.length < frag.length := by simpa using hlen
    constructor <;> simp [Pattern.matchesName] <;> omega

/-- Witness for claim C7 at a concrete handler with min 5, max 10 and an
Exact pattern. -/
theorem c7_matches_order_witness :
    exH7.Matches 4 "hit" = false
  ∧ exH7.Matches 11 "hit" = false
  ∧ exH7.Matches 5 "hit" = (Pattern.mk .Exact "hit").matchesName "hit"
  ∧ exH7.Matches 10 "hit" = (Pattern.mk .Exact "hit").matchesName "hit"
  ∧ Pattern.matchesName ⟨.StartsWith, "jump"⟩ "ju" = false := by
  have h5 := c7_matches_order.2.2.2.2.1 exH7 "hit" rfl rfl
  have hp := h5.2.2 ⟨.Exact, "hit"⟩ rfl
  refine ⟨h5.1, h5.2.1, hp.1, hp.2, ?_⟩
  exact (c7_matches_order.2.2.2.2.2 "jump" "ju" (by decide)).1

/-- Claim C1: on a blocking-mode hook, when the first handler matches and
its enter callback leaves the event-name property rewritten to a new
value, the remaining handlers are processed by the same Enter pass
starting from the rewritten name (in particular the next handler computes
its match flag against the rewritten name), and the event name returned
through the by-reference native argument is the value threaded through
all remaining handlers from the rewritten one. -/
theorem c1_rewrite_propagates (hk : Hook) (tid selfId : Nat) (ev ev' : String)
    (h1 h2 : Handler) (rest2 : List Handler)
    (hA : ¬ hk.hookName = "sendPapyrusEvent")
    (hfresh : ¬ tid ∈ hk.inProgressThreads)
    (hhs : hk.handlers = h1 :: h2 :: rest2)
    (hm : h1.Matches selfId ev = true)
    (hrw : (HandleEnterStep hk.eventNameVariableName tid selfId ev h1).2.1 = ev') :
    (Hook.Enter hk tid selfId ev).eventName
      = (HandleEnter hk.eventNameVariableName tid selfId ev' (h2 :: rest2)).2.1
  ∧ ((Hook.Enter hk tid selfId ev).hook.handlers[1]?).map
      (fun h => (ptLookup h.perThread tid).map (fun pt => pt.matchesCondition))
      = some (some (h2.Matches selfId ev')) := by
  have henter : Hook.Enter hk tid selfId ev =
      { hook := { hk with inProgressThreads := insertThread tid hk.inProgressThreads,
                          handlers := (HandleEnter hk.eventNameVariableName tid selfId ev hk.handlers).1 },
        eventName := (HandleEnter hk.eventNameVariableName tid selfId ev hk.handlers).2.1,
        errorTasks := [], asyncTasks := 0, blocked := true,
        log := (HandleEnter hk.eventNameVariableName tid selfId ev hk.handlers).2.2 } := by
    rw [Hook.Enter, if_neg hA, if_neg hfresh]
  constructor
  · rw [henter]
    show (HandleEnter hk.eventNameVariableName tid selfId ev hk.handlers).2.1
      = (HandleEnter hk.eventNameVariableName tid selfId ev' (h2 :: rest2)).2.1
    rw [hhs]
    show (HandleEnter hk.eventNameVariableName tid selfId
        (HandleEnterStep hk.eventNameVariableName tid selfId ev h1).2.1 (h2 :: rest2)).2.1
      = (HandleEnter hk.eventNameVariableName tid selfId ev' (h2 :: rest2)).2.1
    rw [hrw]
  · rw [henter]
    show (((HandleEnter hk.eventNameVariableName tid selfId ev hk.handlers).1)[1]?).map
        (fun h => (ptLookup h.perThread tid).map (fun pt => pt.matchesCondition))
      = some (some (h2.Matches selfId ev'))
    rw [hhs]
    simp only [HandleEnter]
    rw [hrw]
    simp only [HandleEnter, List.getElem?_cons_succ, List.getElem?_cons_zero]
    simp [HandleEnterStep_flag]

/-- Witness for claim C1: a first handler rewrites walk to jump and the
second handler, whose StartsWith ju pattern rejects walk, is matched
against jump; the native caller sees the threaded result. -/
theorem c1_rewrite_propagates_witness :
    (Hook.Enter exHook1 7 3 "walk").eventName
      = (HandleEnter "animEventName" 7 3 "jump" [exH2]).2.1
  ∧ ((Hook.Enter exHook1 7 3 "walk").hook.handlers[1]?).map
      (fun h => (ptLookup h.perThread 7).map (fun pt => pt.matchesCondition))
      = some (some (exH2.Matches 3 "jump")) := by
  exact c1_rewrite_propagates exHook1 7 3 "walk" "jump" exH1 exH2 []
    (by decide) (by decide) rfl rfl rfl

/-- Claim C2: on a blocking-mode hook, a second Enter on the same thread
with no intervening Leave adds exactly one error task to the executor
task queue, carrying the already-processing message annotated with the
hook name and the enter operation, while the hook state and the by
reference event name are left untouched; a Leave on a thread with no
unmatched Enter adds exactly one error task carrying the not-processing
message with the hook name and the Leave annotation and also leaves the
hook untouched. Both native calls return normally: Hook.Enter and
Hook.Leave are total and deliver the error only through the errorTasks
channel, never through the return path. -/
theorem c2_reentrancy_redirected (hk : Hook) (tid selfId selfId2 : Nat)
    (ev ev2 : String) (b : Bool)
    (hA : ¬ hk.hookName = "sendPapyrusEvent")
    (hfresh : ¬ tid ∈ hk.inProgressThreads) :
    ((Hook.Enter hk tid selfId ev).errorTasks = []
     ∧ (Hook.Enter (Hook.Enter hk tid selfId ev).hook tid selfId2 ev2).errorTasks
       = ["\x27" ++ hk.hookName ++ "\x27 is already processing (while performing enter on \x27" ++ hk.hookName ++ "\x27)"]
     ∧ (Hook.Enter (Hook.Enter hk tid selfId ev).hook tid selfId2 ev2).eventName = ev2
     ∧ (Hook.Enter (Hook.Enter hk tid selfId ev).hook tid selfId2 ev2).hook
       = (Hook.Enter hk tid selfId ev).hook)
  ∧ ((Hook.Leave hk tid b).errorTasks
       = ["\x27" ++ hk.hookName ++ "\x27 is not processing (in SendAnimationEventLeave)"]
     ∧ (Hook.Leave hk tid b).hook = hk
     ∧ (Hook.Leave hk tid b).log = []) := by
  have henter : Hook.Enter hk tid selfId ev =
      { hook := { hk with inProgressThreads := insertThread tid hk.inProgressThreads,
                          handlers := (HandleEnter hk.eventNameVariableName tid selfId ev hk.handlers).1 },
        eventName := (HandleEnter hk.eventNameVariableName tid selfId ev hk.handlers).2.1,
        errorTasks := [], asyncTasks := 0, blocked := true,
        log := (HandleEnter hk.eventNameVariableName tid selfId ev hk.handlers).2.2 } := by
    rw [Hook.Enter, if_neg hA, if_neg hfresh]
  constructor
  · refine ⟨by rw [henter], ?_, ?_, ?_⟩ <;>
    · rw [henter]
      rw [Hook.Enter, if_neg hA, if_pos (mem_insertThread tid hk.inProgressThreads)]
  · rw [Hook.Leave, if_neg hA, if_neg hfresh]
    exact ⟨rfl, rfl, rfl⟩

/-- Witness for claim C2 on a concrete blocking hook and thread. -/
theorem c2_reentrancy_redirected_witness :
    ((Hook.Enter exHook2 7 3 "walk").errorTasks = []
     ∧ (Hook.Enter (Hook.Enter exHook2 7 3 "walk").hook 7 4 "run").errorTasks
       = ["\x27sendAnimationEvent\x27 is already processing (while performing enter on \x27sendAnimationEvent\x27)"]
     ∧ (Hook.Enter (Hook.Enter exHook2 7 3 "walk").hook 7 4 "run").eventName = "run"
     ∧ (Hook.Enter (Hook.Enter exHook2 7 3 "walk").hook 7 4 "run").hook
       = (Hook.Enter exHook2 7 3 "walk").hook)
  ∧ ((Hook.Leave exHook2 7 true).errorTasks
       = ["\x27sendAnimationEvent\x27 is not processing (in SendAnimationEventLeave)"]
     ∧ (Hook.Leave exHook2 7 true).hook = exHook2
     ∧ (Hook.Leave exHook2 7 true).log = []) := by
  exact c2_reentrancy_redirected exHook2 7 3 4 "walk" "run" true (by decide) (by decide)

/-- Claim C8: for the fire-and-forget sendPapyrusEvent hook, Enter
enqueues exactly one asynchronous task when some handler filter matches
the id and event name and none otherwise, never blocks, never touches the
hook state, posts no error task and never writes the event name back; and
the decision depends only on the immutable filter fields of the handlers,
never on their callbacks, per-thread state or the in-progress set. -/
theorem c8_papyrus_precheck (hk hk2 : Hook) (tid selfId : Nat) (ev : String)
    (hP : hk.hookName = "sendPapyrusEvent")
    (hP2 : hk2.hookName = "sendPapyrusEvent")
    (hf : sameFiltersList hk.handlers hk2.handlers) :
    ((Hook.Enter hk tid selfId ev).asyncTasks
       = (if hk.handlers.any (fun h => h.Matches selfId ev) then 1 else 0)
     ∧ (Hook.Enter hk tid selfId ev).blocked = false
     ∧ (Hook.Enter hk tid selfId ev).eventName = ev
     ∧ (Hook.Enter hk tid selfId ev).hook = hk
     ∧ (Hook.Enter hk tid selfId ev).errorTasks = []
     ∧ (Hook.Enter hk tid selfId ev).log = [])
  ∧ (Hook.Enter hk2 tid selfId ev).asyncTasks = (Hook.Enter hk tid selfId ev).asyncTasks := by
  have hany := any_Matches_of_sameFiltersList hk.handlers hk2.handlers hf selfId ev
  constructor
  · rw [Hook.Enter, if_pos hP]
    cases hmatch : hk.handlers.any (fun h => h.Matches selfId ev) <;> simp
  · have e1 : Hook.Enter hk tid selfId ev =
        (if hk.handlers.any (fun h => h.Matches selfId ev) then
          { hook := hk, eventName := ev, errorTasks := [], asyncTasks := 1,
            blocked := false, log := [] }
        else
          { hook := hk, eventName := ev, errorTasks := [], asyncTasks := 0,
            blocked := false, log := [] }) := by
      rw [Hook.Enter, if_pos hP]
    have e2 : Hook.Enter hk2 tid selfId ev =
        (if hk2.handlers.any (fun h => h.Matches selfId ev) then
          { hook := hk2, eventName := ev, errorTasks := [], asyncTasks := 1,
            blocked := false, log := [] }
        else
          { hook := hk2, eventName := ev, errorTasks := [], asyncTasks := 0,
            blocked := false, log := [] }) := by
      rw [Hook.Enter, if_pos hP2]
    rw [e1, e2, ← hany]
    cases hmatch : hk.handlers.any (fun h => h.Matches selfId ev) <;> simp [hmatch]

/-- Witness for claim C8: a handler with min id 5 rejects id 3 (zero
tasks) and accepts id 6 (one task), and the variant hook that differs
only in callbacks, per-thread state and the in-progress set enqueues the
same number of tasks. -/
theorem c8_papyrus_precheck_witness :
    ((Hook.Enter exHook8 7 3 "evt").asyncTasks
       = (if exHook8.handlers.any (fun h => h.Matches 3 "evt") then 1 else 0)
     ∧ (Hook.Enter exHook8 7 3 "evt").blocked = false
     ∧ (Hook.Enter exHook8 7 3 "evt").eventName = "evt"
     ∧ (Hook.Enter exHook8 7 3 "evt").hook = exHook8
     ∧ (Hook.Enter exHook8 7 3 "evt").errorTasks = []
     ∧ (Hook.Enter exHook8 7 3 "evt").log = [])
  ∧ (Hook.Enter exHook8b 7 3 "evt").asyncTasks = (Hook.Enter exHook8 7 3 "evt").asyncTasks := by
  exact c8_papyrus_precheck exHook8 exHook8b 7 3 "evt" rfl rfl
    (List.forall₂_cons.mpr ⟨⟨rfl, rfl, rfl⟩, List.Forall₂.nil⟩)

/-- Counterexample to claim C4 as stated: on a blocking hook with one
handler whose pattern does not match the event, Enter followed by the
matching Leave (which reports no error) still leaves the handler with a
per-thread entry for the calling thread, because HandleLeave erases an
entry only when the recorded match flag was true. The claim asserts that
no per-thread entry outlives its Enter/Leave pair whether or not the
filter matched, so it is false at this input. -/
theorem c4_counterexample :
    (Hook.Leave (Hook.Enter exHook4 7 1 "y").hook 7 true).errorTasks = []
  ∧ (Hook.Leave (Hook.Enter exHook4 7 1 "y").hook 7 true).hook.handlers.map
      (fun h => (ptLookup h.perThread 7).isSome) = [true] := by
  constructor <;> rfl

/-- Claim C4 amended: on a blocking hook, Enter lazily creates a
per-thread entry for every handler (whether or not its filter matched),
and the matching Leave removes the entry only for the handlers whose
recorded match flag was true; a non-matching handler keeps its entry
(with a false flag) past the Leave. -/
theorem c4_amended_scratch_lifetime (hk : Hook) (tid selfId : Nat) (ev : String) (b : Bool)
    (hA : ¬ hk.hookName = "sendPapyrusEvent")
    (hfresh : ¬ tid ∈ hk.inProgressThreads) :
    (Hook.Enter hk tid selfId ev).hook.handlers.map
        (fun h => (ptLookup h.perThread tid).isSome)
      = hk.handlers.map (fun _ => true)
  ∧ (Hook.Leave (Hook.Enter hk tid selfId ev).hook tid b).errorTasks = []
  ∧ (Hook.Leave (Hook.Enter hk tid selfId ev).hook tid b).hook.handlers.map
        (fun h => (ptLookup h.perThread tid).isSome)
      = (Hook.Enter hk tid selfId ev).hook.handlers.map
        (fun h => match ptLookup h.perThread tid with
                  | some pt => !pt.matchesCondition
                  | none => true) := by
  have henter : Hook.Enter hk tid selfId ev =
      { hook := { hk with inProgressThreads := insertThread tid hk.inProgressThreads,
                          handlers := (HandleEnter hk.eventNameVariableName tid selfId ev hk.handlers).1 },
        eventName := (HandleEnter hk.eventNameVariableName tid selfId ev hk.handlers).2.1,
        errorTasks := [], asyncTasks := 0, blocked := true,
        log := (HandleEnter hk.eventNameVariableName tid selfId ev hk.handlers).2.2 } := by
    rw [Hook.Enter, if_neg hA, if_neg hfresh]
  have hmem' : tid ∈ (Hook.Enter hk tid selfId ev).hook.inProgressThreads := by
    rw [henter]
    exact mem_insertThread tid hk.inProgressThreads
  have hA' : ¬ (Hook.Enter hk tid selfId ev).hook.hookName = "sendPapyrusEvent" := by
    rw [henter]
    exact hA
  have hallpresent : ∀ h ∈ (Hook.Enter hk tid selfId ev).hook.handlers,
      (ptLookup h.perThread tid).isSome = true := by
    rw [henter]
    exact HandleEnter_entries_mem hk.eventNameVariableName tid selfId ev hk.handlers
  have hlv := HandleLeave_entries (Hook.Enter hk tid selfId ev).hook.succeededVariableName tid b
      (Hook.Enter hk tid selfId ev).hook.handlers hallpresent
  have hleave : Hook.Leave (Hook.Enter hk tid selfId ev).hook tid b =
      { hook := { (Hook.Enter hk tid selfId ev).hook with
                    inProgressThreads := eraseThread tid (Hook.Enter hk tid selfId ev).hook.inProgressThreads,
                    handlers := (HandleLeave (Hook.Enter hk tid selfId ev).hook.succeededVariableName tid b
                      (Hook.Enter hk tid selfId ev).hook.handlers).1 },
        errorTasks :=
          match (HandleLeave (Hook.Enter hk tid selfId ev).hook.succeededVariableName tid b
              (Hook.Enter hk tid selfId ev).hook.handlers).2.2 with
          | some e => [e ++ " (in SendAnimationEventLeave)"]
          | none => [],
        blocked := true,
        log := (HandleLeave (Hook.Enter hk tid selfId ev).hook.succeededVariableName tid b
            (Hook.Enter hk tid selfId ev).hook.handlers).2.1 } := by
    rw [Hook.Leave, if_neg hA', if_pos hmem']
  refine ⟨?_, ?_, ?_⟩
  · rw [henter]
    exact HandleEnter_entries hk.eventNameVariableName tid selfId ev hk.handlers
  · rw [hleave]
    simp [hlv.1]
  · rw [hleave]
    exact hlv.2

/-- Witness for the amended claim C4 at the counterexample input. -/
theorem c4_amended_scratch_lifetime_witness :
    (Hook.Enter exHook4 7 1 "y").hook.handlers.map
        (fun h => (ptLookup h.perThread 7).isSome)
      = exHook4.handlers.map (fun _ => true)
  ∧ (Hook.Leave (Hook.Enter exHook4 7 1 "y").hook 7 true).errorTasks = []
  ∧ (Hook.Leave (Hook.Enter exHook4 7 1 "y").hook 7 true).hook.handlers.map
        (fun h => (ptLookup h.perThread 7).isSome)
      = (Hook.Enter exHook4 7 1 "y").hook.handlers.map
        (fun h => match ptLookup h.perThread 7 with
                  | some pt => !pt.matchesCondition
                  | none => true) := by
  exact c4_amended_scratch_lifetime exHook4 7 1 "y" true (by decide) (by decide)

/-- Claim C9: for a matched handler invocation on a blocking hook, the
storage Map is empty when the enter callback receives the context (it is
cleared on Enter before handler invocation, regardless of what an earlier
invocation left in the per-thread entry), the value the enter callback
stashes is still there when the leave callback of the matching Leave
receives the context (nothing clears storage between Enter and Leave),
and the per-thread entry holding the storage is gone after Leave
completes. The enter callback here stashes one arbitrary value and both
callbacks log the context they were handed. -/
theorem c9_storage_lifecycle (name vn : String) (sv : Option String) (ipt : List Nat)
    (tid selfId : Nat) (ev : String) (v : JsVal) (mn mx : Option Rat)
    (pat : Option Pattern) (m0 : List (Nat × PerThread)) (b : Bool)
    (hA : ¬ name = "sendPapyrusEvent")
    (hfresh : ¬ tid ∈ ipt)
    (hM : Handler.Matches ⟨m0, stashEnter v, probeLeave, pat, mn, mx⟩ selfId ev = true) :
    (Hook.Enter ⟨name, vn, sv, ipt, [⟨m0, stashEnter v, probeLeave, pat, mn, mx⟩]⟩
        tid selfId ev).log.map (fun c => c.storage) = [[]]
  ∧ (Hook.Leave (Hook.Enter ⟨name, vn, sv, ipt, [⟨m0, stashEnter v, probeLeave, pat, mn, mx⟩]⟩
        tid selfId ev).hook tid b).log.map (fun c => c.storage) = [[v]]
  ∧ (Hook.Leave (Hook.Enter ⟨name, vn, sv, ipt, [⟨m0, stashEnter v, probeLeave, pat, mn, mx⟩]⟩
        tid selfId ev).hook tid b).hook.handlers.map
        (fun h => ptLookup h.perThread tid) = [none]
  ∧ (Hook.Leave (Hook.Enter ⟨name, vn, sv, ipt, [⟨m0, stashEnter v, probeLeave, pat, mn, mx⟩]⟩
        tid selfId ev).hook tid b).errorTasks = [] := by
  rcases hpt : (ptLookup m0 tid).getD PerThread.init with ⟨ctx0, cc, sc, mc⟩
  cases cc <;> cases sc <;> cases sv <;>
    simp [Hook.Enter, Hook.Leave, HandleEnter, HandleEnterStep, HandleLeave,
      hA, hfresh, hM, hpt, mem_insertThread, PrepareContext, ClearContextStorage,
      Ctx.setProp, stashEnter, probeLeave, ptLookup_ptSet, ptLookup_ptRemove]

/-- Witness for claim C9 on a concrete hook with bounds and a pattern. -/
theorem c9_storage_lifecycle_witness :
    (Hook.Enter exHook9 7 3 "jump").log.map (fun c => c.storage) = [[]]
  ∧ (Hook.Leave (Hook.Enter exHook9 7 3 "jump").hook 7 true).log.map
        (fun c => c.storage) = [[JsVal.num 1]]
  ∧ (Hook.Leave (Hook.Enter exHook9 7 3 "jump").hook 7 true).hook.handlers.map
        (fun h => ptLookup h.perThread 7) = [none]
  ∧ (Hook.Leave (Hook.Enter exHook9 7 3 "jump").hook 7 true).errorTasks = [] := by
  exact c9_storage_lifecycle "sendAnimationEvent" "animEventName"
    (some "animationSucceeded") [] 7 3 "jump" (.num 1) (some 2) (some 5)
    (some ⟨.StartsWith, "ju"⟩) [] true (by decide) (by decide) (by decide)

/-- Counterexample to claim C3 as stated: SendEvent does not clear or
snapshot the one-shot list before invoking callbacks of both kinds; it
snapshots and clears the one-shot list only after the persistent pass has
run. With one persistent tick callback (id 1) that registers a one-shot
tick callback (id 2) during dispatch, the code invokes 1 and then 2 in
the same SendEvent pass, while the claimed snapshot-first semantics
(SendEventClaimC3, written from the claim wording) invokes only 1. -/
theorem c3_counterexample :
    (SendEvent "tick" exSt3).map (fun r => r.2) = .ok [1, 2]
  ∧ (SendEventClaimC3 "tick" exSt3).map (fun r => r.2) = .ok [1]
  ∧ ¬ (SendEvent "tick" exSt3).map (fun r => r.2)
      = (SendEventClaimC3 "tick" exSt3).map (fun r => r.2) := by
  refine ⟨rfl, rfl, fun hcontr => ?_⟩
  have h12 : (Except.ok [1, 2] : Except String (List Nat)) = .ok [1] := hcontr
  simp at h12

/-- Claim C3 amended: the persistent pass snapshots the persistent list
and runs it first, with the live one-shot list untouched; only then is
the one-shot list snapshotted and cleared, immediately before the
one-shot pass. Hence a one-shot callback that re-registers a one-shot
callback for the same name during dispatch does not trigger it in the
same pass (it stays for the next SendEvent), while a persistent callback
that registers a one-shot callback during dispatch does see it run in the
same pass, because the one-shot snapshot is taken only after the
persistent pass. -/
theorem c3_amended_snapshot_order (ev : String) (i : Nat) (inner : CB)
    (eff : CbState → CbState) (st stp : CbState)
    (hev : ev ∈ events)
    (hinner : ∀ s, runCB inner s = .ok (eff s))
    (h1 : st.callbacks ev = []) (h2 : st.callbacksOnce ev = [CB.onceRegisterer i ev inner])
    (h3 : stp.callbacks ev = [CB.onceRegisterer i ev inner]) (h4 : stp.callbacksOnce ev = []) :
    (∃ st', SendEvent ev st = .ok (st', [i]) ∧ st'.callbacksOnce ev = [inner])
  ∧ (∃ st'', SendEvent ev stp = .ok (st'', [i, inner.cbId])) := by
  have hrunHead : ∀ s : CbState, runCB (CB.onceRegisterer i ev inner) s
      = .ok { s with callbacksOnce := mapAppend s.callbacksOnce ev inner } := by
    intro s
    simp [runCB, AddCallback, hev]
  constructor
  · refine ⟨{ st with callbacksOnce := mapAppend (mapUpd st.callbacksOnce ev []) ev inner },
      ?_, ?_⟩
    · simp [SendEvent, CallCalbacks, h1, h2, runCallbackList, hrunHead, CB.cbId]
    · simp [mapAppend, mapUpd]
  · refine ⟨eff { stp with callbacksOnce := mapUpd (mapAppend stp.callbacksOnce ev inner) ev [] },
      ?_⟩
    simp [SendEvent, CallCalbacks, h3, h4, runCallbackList, hrunHead, hinner, CB.cbId,
      mapAppend, mapUpd]

/-- Witness for the amended claim C3 at concrete registry states. -/
theorem c3_amended_snapshot_order_witness :
    (∃ st', SendEvent "tick" exSt3b = .ok (st', [1])
       ∧ st'.callbacksOnce "tick" = [CB.basic 2])
  ∧ (∃ st'', SendEvent "tick" exSt3 = .ok (st'', [1, (CB.basic 2).cbId])) := by
  exact c3_amended_snapshot_order "tick" 1 (CB.basic 2) (fun s => s) exSt3b exSt3
    (by decide) (fun s => rfl) rfl rfl rfl rfl

/-- Claim C5: registering a one-shot tick callback and firing SendEvent
twice invokes it exactly once in total, and when that callback registers
another one-shot callback for the same name during its own invocation,
the new callback does not fire in the same dispatch pass but only in the
next SendEvent for that name. -/
theorem c5_once_fires_once (i : Nat) (cb2 : CB) (eff : CbState → CbState) (st : CbState)
    (h1 : st.callbacks "tick" = []) (h2 : st.callbacksOnce "tick" = [])
    (hcb2 : ∀ s, runCB cb2 s = .ok (eff s))
    (hne : cb2.cbId ≠ i) :
    ∃ st1 st2 st3,
      AddCallback "tick" (CB.onceRegisterer i "tick" cb2) true st = .ok st1
      ∧ SendEvent "tick" st1 = .ok (st2, [i])
      ∧ SendEvent "tick" st2 = .ok (st3, [cb2.cbId])
      ∧ ([i] ++ [cb2.cbId]).count i = 1 := by
  have htick : "tick" ∈ events := by decide
  have hrunCb : ∀ s : CbState, runCB (CB.onceRegisterer i "tick" cb2) s
      = .ok { s with callbacksOnce := mapAppend s.callbacksOnce "tick" cb2 } := by
    intro s
    simp [runCB, AddCallback, htick]
  refine
    ⟨{ st with callbacksOnce :=
            mapAppend st.callbacksOnce "tick" (CB.onceRegisterer i "tick" cb2) },
      { st with callbacksOnce :=
            mapAppend (mapUpd (mapAppend st.callbacksOnce "tick"
              (CB.onceRegisterer i "tick" cb2)) "tick" []) "tick" cb2 },
      eff ({ st with callbacksOnce :=
                mapUpd (mapAppend (mapUpd (mapAppend st.callbacksOnce "tick"
                  (CB.onceRegisterer i "tick" cb2)) "tick" []) "tick" cb2) "tick" [] }),
      ?_, ?_, ?_, ?_⟩
  · simp [AddCallback, htick]
  · simp [SendEvent, CallCalbacks, h1, h2, runCallbackList, hrunCb, CB.cbId,
      mapAppend, mapUpd]
  · simp [SendEvent, CallCalbacks, h1, h2, runCallbackList, hcb2, CB.cbId,
      mapAppend, mapUpd]
  · simp [List.count_cons, hne]

/-- Witness for claim C5 starting from the empty registry. -/
theorem c5_once_fires_once_witness :
    ∃ st1 st2 st3,
      AddCallback "tick" (CB.onceRegisterer 1 "tick" (CB.basic 2)) true emptyCbState = .ok st1
      ∧ SendEvent "tick" st1 = .ok (st2, [1])
      ∧ SendEvent "tick" st2 = .ok (st3, [(CB.basic 2).cbId])
      ∧ ([1] ++ [(CB.basic 2).cbId]).count 1 = 1 := by
  exact c5_once_fires_once 1 (CB.basic 2) (fun s => s) emptyCbState rfl rfl
    (fun s => rfl) (by decide)

/-- Claim C10: SendEvent validates nothing: for any event name with no
registered callbacks (in particular any name outside the recognized
category set), it invokes no callback and returns normally, leaving the
persistent map untouched; On and Once, in contrast, reject a name outside
the recognized set with a synchronous error. -/
theorem c10_sendevent_no_validation (ev : String) (st : CbState)
    (h1 : st.callbacks ev = []) (h2 : st.callbacksOnce ev = []) :
    (∃ st', SendEvent ev st = .ok (st', [])
       ∧ st'.callbacks = st.callbacks ∧ st'.callbacksOnce ev = [])
  ∧ (∀ (cb : CB) (isOnce : Bool), ¬ ev ∈ events →
       AddCallback ev cb isOnce st
         = .error ("InvalidArgumentException: eventName " ++ ev)) := by
  constructor
  · refine ⟨{ st with callbacksOnce := mapUpd st.callbacksOnce ev [] }, ?_, rfl, ?_⟩
    · simp [SendEvent, CallCalbacks, h1, h2, runCallbackList, mapUpd]
    · simp [mapUpd]
  · intro cb isOnce hnm
    simp [AddCallback, hnm]

/-- Witness for claim C10 at a name outside the recognized set. -/
theorem c10_sendevent_no_validation_witness :
    (∃ st', SendEvent "bogus" emptyCbState = .ok (st', [])
       ∧ st'.callbacks = emptyCbState.callbacks ∧ st'.callbacksOnce "bogus" = [])
  ∧ AddCallback "bogus" (CB.basic 0) true emptyCbState
      = .error ("InvalidArgumentException: eventName " ++ "bogus") := by
  refine ⟨(c10_sendevent_no_validation "bogus" emptyCbState rfl rfl).1, ?_⟩
  exact (c10_sendevent_no_validation "bogus" emptyCbState rfl rfl).2
    (CB.basic 0) true (by decide)
